import Mathlib

/-!
Verification of the AI Story Video Generator pipeline orchestrator.

This file gives a shallow embedding, in Lean 4, of the orchestrator core of
the repository (session state machine, retry controller, duration reconciler,
segment ordering, prompt cache merging, subtitle clamping, and slug
generation), translated from the Python sources:

  main.py, api/server.py, utils/common.py, scripts/llm.py,
  videogeneration/combine.py, videogeneration/subtitles.py

Media clips are modelled as a rational duration together with a total frame
function; machine floats of the source are modelled by exact rationals, and
external generative collaborators (LLM, TTS, image and video backends) are
modelled as explicit parameters or outcome data of the functions that invoke
them.
-/

/-! ### Segment Text Splitter (main.py, natural_segment_order) -/

/-- The first maximal run of decimal digits in a character list, if any.
Embeds the behaviour of the regular expression search for a digit run used by
main.py. -/
def firstDigitRun : List Char → Option (List Char)
  | [] => none
  | c :: cs => if c.isDigit then some (c :: cs.takeWhile Char.isDigit) else firstDigitRun cs

/-- Decimal value of a digit-character list, as computed by int() on the
matched run. -/
def digitsToNat (l : List Char) : Nat :=
  l.foldl (fun n c => n * 10 + (c.toNat - 48)) 0

/-- Embeds the inner helper of main.py natural_segment_order: the first
embedded integer of a segment key, and 0 when the key has no digits. -/
def seg_key (s : String) : Nat :=
  match firstDigitRun s.data with
  | some run => digitsToNat run
  | none => 0

/-- The comparison used by the Python sorted(..) call: ascending by the first
embedded integer. -/
def segLE (a b : String) : Prop := seg_key a ≤ seg_key b

instance : DecidableRel segLE := fun a b => inferInstanceAs (Decidable (seg_key a ≤ seg_key b))

instance : IsTotal String segLE := ⟨fun a b => Nat.le_total (seg_key a) (seg_key b)⟩

instance : IsTrans String segLE := ⟨fun _ _ _ h1 h2 => Nat.le_trans h1 h2⟩

/-- Embeds main.py natural_segment_order: Python sorted(..) is a stable sort
by the extracted integer key, which insertion sort by the same key realises
exactly. -/
def natural_segment_order (segments : List String) : List String :=
  List.insertionSort segLE segments

/-- Lexicographic order on strings by code point, as Python compares key
strings. -/
def charListLE : List Char → List Char → Bool
  | [], _ => true
  | _ :: _, [] => false
  | a :: as, b :: bs =>
    if a.toNat < b.toNat then true
    else if b.toNat < a.toNat then false
    else charListLE as bs

/-- The ordering the claim asserts: ascending by embedded integer with ties
broken by the original key string (adjacent pairs checked executably). -/
def tieBrokenByString : List String → Bool
  | [] => true
  | [_] => true
  | a :: b :: rest =>
    (decide (seg_key a < seg_key b) ||
      (seg_key a == seg_key b && charListLE a.data b.data)) &&
    tieBrokenByString (b :: rest)

/-- Filtering by a key-level predicate commutes with ordered insertion when
elements placed after the inserted one cannot satisfy the predicate. -/
theorem filter_orderedInsert {α : Type} (r : α → α → Prop) [DecidableRel r]
    (p : α → Bool) (a : α)
    (h : ∀ b, p a = true → ¬ r a b → p b = false) :
    ∀ L : List α, (List.orderedInsert r a L).filter p =
      if p a then a :: L.filter p else L.filter p := by
  intro L
  induction L with
  | nil => by_cases hpa : p a <;> simp [List.orderedInsert, hpa]
  | cons b L ih =>
    by_cases hr : r a b
    · by_cases hpa : p a <;> simp [List.orderedInsert, hr, hpa]
    · by_cases hpa : p a
      · have hpb : p b = false := h b hpa hr
        simp [List.orderedInsert, hr, hpa, hpb, ih]
      · simp [List.orderedInsert, hr, List.filter_cons, ih, hpa]

/-- Stability of the insertion sort under a key-level predicate. -/
theorem filter_insertionSort {α : Type} (r : α → α → Prop) [DecidableRel r]
    (p : α → Bool)
    (h : ∀ a b, p a = true → ¬ r a b → p b = false) :
    ∀ l : List α, (List.insertionSort r l).filter p = l.filter p := by
  intro l
  induction l with
  | nil => rfl
  | cons a l ih =>
    simp only [List.insertionSort]
    rw [filter_orderedInsert r p a (h a), ih]
    by_cases hpa : p a <;> simp [hpa]

/-- C4 (amended): natural_segment_order returns the same multiset of keys,
sorted ascending by the first embedded integer (a key with no digits counts
as 0), and it is stable: keys with equal embedded integers keep their input
order (it does not break such ties by the key string).  The function is a
pure function of its input.  The claim example holds. -/
theorem C4_natural_segment_order_stable_sort (l : List String) (m : Nat) :
    (natural_segment_order l).Perm l ∧
    (natural_segment_order l).Sorted segLE ∧
    (natural_segment_order l).filter (fun s => seg_key s == m) =
      l.filter (fun s => seg_key s == m) ∧
    natural_segment_order ["segment10", "segment2", "segment1"] =
      ["segment1", "segment2", "segment10"] := by
  refine ⟨List.perm_insertionSort segLE l, List.sorted_insertionSort segLE l, ?_, by decide⟩
  apply filter_insertionSort
  intro a b hpa hr
  have ha : seg_key a = m := by simpa using hpa
  have hb : seg_key b < seg_key a := Nat.lt_of_not_le hr
  simp [Nat.ne_of_lt (ha ▸ hb)]

/-- C4 counterexample: on input ["b1", "a1"] (both with embedded integer 1)
the code keeps the input order, so the output violates the tie-break-by-key-
string ordering asserted by the claim. -/
theorem C4_counterexample :
    natural_segment_order ["b1", "a1"] = ["b1", "a1"] ∧
    tieBrokenByString (natural_segment_order ["b1", "a1"]) = false := by decide

/-! ### Media clip model and Duration Reconciler (main.py, adjust_video_to_duration) -/

/-- A silent media clip: a rational duration and a total frame function.
Rationals model the float time arithmetic of moviepy exactly. -/
structure Clip (F : Type) where
  duration : ℚ
  frame : ℚ → F

/-- moviepy subclip(a, b): duration b - a, frames read at offset a. -/
def subclip {F : Type} (c : Clip F) (a b : ℚ) : Clip F :=
  ⟨b - a, fun t => c.frame (a + t)⟩

/-- moviepy ImageClip(frame).set_duration(d): a constant clip. -/
def imageClip {F : Type} (fr : F) (d : ℚ) : Clip F :=
  ⟨d, fun _ => fr⟩

/-- moviepy concatenate_videoclips([c1, c2]): durations add, frames switch at
the boundary. -/
def concatClips {F : Type} (c1 c2 : Clip F) : Clip F :=
  ⟨c1.duration + c2.duration,
   fun t => if t < c1.duration then c1.frame t else c2.frame (t - c1.duration)⟩

/-- Embeds main.py adjust_video_to_duration: trim to the target when more
than 1ms too long, freeze the frame sampled at max(duration - 1/fps, 0) when
more than 1ms too short, otherwise pass through. -/
def adjust_video_to_duration {F : Type} (clip : Clip F) (target_duration : ℚ)
    (fps : ℚ := 24) : Clip F :=
  let cur := clip.duration
  let tol : ℚ := 1/1000
  if cur > target_duration + tol then
    subclip clip 0 target_duration
  else if cur < target_duration - tol then
    let safe_t := max (cur - 1/fps) 0
    let last_frame := clip.frame safe_t
    concatClips clip (imageClip last_frame (target_duration - cur))
  else
    clip

/-- C3: the duration reconciler trims to [0, target] when the clip is more
than the 1ms tolerance too long, extends with a still frame sampled at
max(duration - 1/fps, 0) held for target - duration when more than the
tolerance too short, passes through otherwise, and in every case the result
duration is within the tolerance of the target. -/
theorem C3_adjust_video_to_duration_correct {F : Type} (clip : Clip F)
    (target fps : ℚ) :
    (clip.duration > target + 1/1000 →
      (adjust_video_to_duration clip target fps).duration = target ∧
      ∀ t, (adjust_video_to_duration clip target fps).frame t = clip.frame t) ∧
    (clip.duration < target - 1/1000 →
      (adjust_video_to_duration clip target fps).duration = target ∧
      (∀ t, t < clip.duration →
        (adjust_video_to_duration clip target fps).frame t = clip.frame t) ∧
      (∀ t, clip.duration ≤ t →
        (adjust_video_to_duration clip target fps).frame t =
          clip.frame (max (clip.duration - 1/fps) 0))) ∧
    (¬ clip.duration > target + 1/1000 → ¬ clip.duration < target - 1/1000 →
      adjust_video_to_duration clip target fps = clip) ∧
    |(adjust_video_to_duration clip target fps).duration - target| ≤ 1/1000 := by
  refine ⟨fun hlong => ?_, fun hshort => ?_, fun h1 h2 => ?_, ?_⟩
  · rw [adjust_video_to_duration, if_pos hlong]
    exact ⟨by simp [subclip], fun t => by simp [subclip]⟩
  · have hnl : ¬ clip.duration > target + 1/1000 := by linarith
    rw [adjust_video_to_duration, if_neg hnl, if_pos hshort]
    refine ⟨by simp [concatClips, imageClip], fun t ht => ?_, fun t ht => ?_⟩
    · simp [concatClips, if_pos ht]
    · simp [concatClips, imageClip, if_neg (not_lt.mpr ht)]
  · rw [adjust_video_to_duration, if_neg h1, if_neg h2]
  · by_cases hlong : clip.duration > target + 1/1000
    · rw [adjust_video_to_duration, if_pos hlong]
      simp [subclip]
    · by_cases hshort : clip.duration < target - 1/1000
      · rw [adjust_video_to_duration, if_neg hlong, if_pos hshort]
        have : clip.duration + (target - clip.duration) = target := by ring
        simp [concatClips, imageClip, this]
      · rw [adjust_video_to_duration, if_neg hlong, if_neg hshort]
        rw [abs_le]
        constructor <;> linarith [not_lt.mp hlong, not_lt.mp hshort]

/-- Witness for C3 at the two spec examples: a 5s clip trimmed to 3s, and a
2s clip padded to 3s, both with frozen-pad frames checked. -/
theorem C3_witness :
    (adjust_video_to_duration (⟨5, fun _ => 0⟩ : Clip ℕ) 3 24).duration = 3 ∧
    (adjust_video_to_duration (⟨2, fun _ => 7⟩ : Clip ℕ) 3 24).duration = 3 ∧
    (adjust_video_to_duration (⟨2, fun _ => 7⟩ : Clip ℕ) 3 24).frame (5/2) = 7 := by
  refine ⟨((C3_adjust_video_to_duration_correct ⟨5, fun _ => 0⟩ 3 24).1
    (by norm_num)).1, ((C3_adjust_video_to_duration_correct ⟨2, fun _ => 7⟩ 3 24).2.1
    (by norm_num)).1, ?_⟩
  have h := ((C3_adjust_video_to_duration_correct (⟨2, fun _ => 7⟩ : Clip ℕ) 3 24).2.1
    (by norm_num)).2.2 (5/2) (by norm_num)
  simpa using h

/-! ### Segment combine stage (videogeneration/combine.py, combine_two_videos) -/

/-- Embeds combine_two_videos: concatenate the two videos, clamp the result
and the narration audio to the shorter of the two minus a 1ms epsilon
(never below 0), and attach the clamped audio.  The returned pair is the
final video track and the attached audio track. -/
def combine_two_videos {F A : Type} (v1 v2 : Clip F) (aud : Clip A) :
    Clip F × Clip A :=
  let seg := concatClips v1 v2
  let tol : ℚ := 1/1000
  let vid_dur := seg.duration
  let aud_dur := aud.duration
  let final_dur := max (min vid_dur aud_dur - tol) 0
  let seg2 := if vid_dur > final_dur then subclip seg 0 final_dur else seg
  let clamped_audio := subclip aud 0 final_dur
  (seg2, clamped_audio)

/-- C8: combining the visual material of a segment with its narration audio yields
tracks of duration max(min(video, audio) - 1ms, 0); the longer track is
truncated down to that duration from time 0, neither track is padded (both
output durations never exceed the originals, and all content is read
unchanged from the inputs). -/
theorem C8_combine_two_videos_correct {F A : Type} (v1 v2 : Clip F)
    (aud : Clip A) (h1 : 0 ≤ v1.duration) (h2 : 0 ≤ v2.duration)
    (h3 : 0 ≤ aud.duration) :
    ((combine_two_videos v1 v2 aud).1.duration =
      max (min (v1.duration + v2.duration) aud.duration - 1/1000) 0) ∧
    ((combine_two_videos v1 v2 aud).2.duration =
      (combine_two_videos v1 v2 aud).1.duration) ∧
    ((combine_two_videos v1 v2 aud).1.duration ≤ v1.duration + v2.duration) ∧
    ((combine_two_videos v1 v2 aud).1.duration ≤ aud.duration) ∧
    (∀ t, (combine_two_videos v1 v2 aud).1.frame t = (concatClips v1 v2).frame t) ∧
    (∀ t, (combine_two_videos v1 v2 aud).2.frame t = aud.frame t) := by
  have hvd : (concatClips v1 v2).duration = v1.duration + v2.duration := rfl
  set D := v1.duration + v2.duration with hD
  have hD0 : 0 ≤ D := by positivity
  set fd := max (min D aud.duration - 1/1000) 0 with hfd
  have hfdD : fd ≤ D := by
    apply max_le _ hD0
    have := min_le_left D aud.duration
    linarith
  have hfda : fd ≤ aud.duration := by
    apply max_le _ h3
    have := min_le_right D aud.duration
    linarith
  have hout : combine_two_videos v1 v2 aud =
      (if D > fd then subclip (concatClips v1 v2) 0 fd else concatClips v1 v2,
       subclip aud 0 fd) := by
    simp only [combine_two_videos]
    rw [hvd]
  have hmain : (combine_two_videos v1 v2 aud).1.duration = fd := by
    rw [hout]
    by_cases hgt : D > fd
    · simp [if_pos hgt, subclip]
    · simp only [if_neg hgt]
      rw [hvd]
      exact le_antisymm (not_lt.mp hgt) hfdD
  refine ⟨hmain, ?_, hmain ▸ hfdD, hmain ▸ hfda, ?_, ?_⟩
  · rw [hmain, hout]
    simp [subclip]
  · intro t
    rw [hout]
    by_cases hgt : D > fd
    · simp [if_pos hgt, subclip]
    · simp [if_neg hgt]
  · intro t
    rw [hout]
    simp [subclip]

/-- Witness for C8 at concrete clips: two 2s halves and a 3s narration give
a 2.999s output on both tracks. -/
theorem C8_witness :
    (combine_two_videos (⟨2, fun _ => (0:ℕ)⟩ : Clip ℕ) ⟨2, fun _ => 1⟩
      (⟨3, fun _ => (0:ℤ)⟩ : Clip ℤ)).1.duration = 2999/1000 ∧
    (combine_two_videos (⟨2, fun _ => (0:ℕ)⟩ : Clip ℕ) ⟨2, fun _ => 1⟩
      (⟨3, fun _ => (0:ℤ)⟩ : Clip ℤ)).2.duration = 2999/1000 := by
  have h := C8_combine_two_videos_correct (⟨2, fun _ => (0:ℕ)⟩ : Clip ℕ)
    ⟨2, fun _ => 1⟩ (⟨3, fun _ => (0:ℤ)⟩ : Clip ℤ)
    (by norm_num) (by norm_num) (by norm_num)
  have h1 : (combine_two_videos (⟨2, fun _ => (0:ℕ)⟩ : Clip ℕ) ⟨2, fun _ => 1⟩
      (⟨3, fun _ => (0:ℤ)⟩ : Clip ℤ)).1.duration = 2999/1000 := by
    rw [h.1]; norm_num
  exact ⟨h1, by rw [h.2.1, h1]⟩

/-! ### Retry Controller (utils/common.py, generate_video_with_retries) -/

/-- The retry loop of utils/common.py: attempt counts failures so far; while
attempt <= max_retries the operation is invoked (op is indexed by the
attempt number); on success the value is returned, on failure the last error
is recorded and attempt incremented; once the budget is exhausted the
aggregated failure carries the total attempt count and the last underlying
error.  The second component counts how many times the operation was
invoked. -/
def retryLoop {α : Type} (op : Nat → Except String α) (max_retries : Nat) :
    Nat → Option String → Except (Nat × Option String) α × Nat
  | attempt, last_err =>
    if attempt ≤ max_retries then
      match op attempt with
      | .ok v => (.ok v, 1)
      | .error e =>
        let r := retryLoop op max_retries (attempt + 1) (some e)
        (r.1, r.2 + 1)
    else
      (.error (attempt, last_err), 0)
termination_by attempt _ => max_retries + 1 - attempt
decreasing_by simp_wf; omega

/-- Embeds generate_video_with_retries: start at attempt 0 with no recorded
error. -/
def generate_video_with_retries {α : Type} (op : Nat → Except String α)
    (max_retries : Nat) : Except (Nat × Option String) α × Nat :=
  retryLoop op max_retries 0 none

theorem retryLoop_ok {α : Type} (op : Nat → Except String α) (mr : Nat)
    (v : α) :
    ∀ (k attempt : Nat) (le : Option String), attempt + k ≤ mr →
      (∀ j, attempt ≤ j → j < attempt + k → ∃ e, op j = .error e) →
      op (attempt + k) = .ok v →
      retryLoop op mr attempt le = (.ok v, k + 1) := by
  intro k
  induction k with
  | zero =>
    intro attempt le hle _ hok
    rw [retryLoop, if_pos (by omega : attempt ≤ mr)]
    simp only [Nat.add_zero] at hok
    rw [hok]
  | succ k ih =>
    intro attempt le hle hfail hok
    obtain ⟨e, he⟩ := hfail attempt (Nat.le_refl _) (by omega)
    rw [retryLoop, if_pos (by omega : attempt ≤ mr), he]
    have hrec := ih (attempt + 1) (some e) (by omega)
      (fun j hj1 hj2 => hfail j (by omega) (by omega))
      (by have harith : attempt + 1 + k = attempt + (k + 1) := by omega
          rw [harith]; exact hok)
    dsimp only
    rw [hrec]

theorem retryLoop_fail {α : Type} (op : Nat → Except String α) (mr : Nat)
    (err : Nat → String)
    (h : ∀ j, j ≤ mr → op j = .error (err j)) :
    ∀ (d attempt : Nat) (le : Option String), attempt + d = mr →
      retryLoop op mr attempt le = (.error (mr + 1, some (err mr)), d + 1) := by
  intro d
  induction d with
  | zero =>
    intro attempt le heq
    simp only [Nat.add_zero] at heq
    subst heq
    rw [retryLoop, if_pos (Nat.le_refl _), h attempt (Nat.le_refl _)]
    dsimp only
    rw [retryLoop, if_neg (by omega : ¬ attempt + 1 ≤ attempt)]
  | succ d ih =>
    intro attempt le heq
    rw [retryLoop, if_pos (by omega : attempt ≤ mr), h attempt (by omega)]
    dsimp only
    rw [ih (attempt + 1) (some (err attempt)) (by omega)]

/-- C2: the retry controller returns the success of the operation after exactly
k+1 invocations when the first k attempts fail and attempt k succeeds within
the budget; when every attempt fails it makes exactly max_retries+1
invocations and fails with an aggregated error carrying the total attempt
count and the last underlying error. -/
theorem C2_generate_video_with_retries_correct {α : Type}
    (op : Nat → Except String α) (max_retries k : Nat) (v : α)
    (err : Nat → String) :
    (k ≤ max_retries → (∀ j, j < k → ∃ e, op j = .error e) → op k = .ok v →
      generate_video_with_retries op max_retries = (.ok v, k + 1)) ∧
    ((∀ j, j ≤ max_retries → op j = .error (err j)) →
      generate_video_with_retries op max_retries =
        (.error (max_retries + 1, some (err max_retries)), max_retries + 1)) := by
  constructor
  · intro hk hfail hok
    have := retryLoop_ok op max_retries v k 0 none (by omega)
      (fun j _ hj => hfail j (by omega)) (by simpa using hok)
    simpa [generate_video_with_retries] using this
  · intro hfail
    have := retryLoop_fail op max_retries err hfail max_retries 0 none (by omega)
    simpa [generate_video_with_retries] using this

/-- Witness for C2 at the two spec examples: an operation failing 3 times
then succeeding, with max_retries = 5, succeeds with exactly 4 attempts; an
operation that always fails, with max_retries = 2, fails after exactly 3
attempts with the last cause aggregated. -/
theorem C2_witness :
    generate_video_with_retries
        (fun j => if j < 3 then .error "quota" else .ok "generated_42.mp4") 5 =
      (.ok "generated_42.mp4", 4) ∧
    generate_video_with_retries (fun _ => (.error "quota" : Except String String)) 2 =
      (.error (3, some "quota"), 3) := by
  constructor
  · exact (C2_generate_video_with_retries_correct
      (fun j => if j < 3 then .error "quota" else .ok "generated_42.mp4") 5 3
      "generated_42.mp4" (fun _ => "quota")).1 (by omega)
      (fun j hj => ⟨"quota", by simp [hj]⟩) (by norm_num)
  · exact (C2_generate_video_with_retries_correct
      (fun _ => (.error "quota" : Except String String)) 2 0 "x"
      (fun _ => "quota")).2 (fun j _ => rfl)

/-! ### Image Prompt Cache (scripts/llm.py, generate_prompts_for_script) -/

/-- A serialized prompt entry for one segment (the JSON value stored under a
segment key in ALL_PROMPTS.json), kept opaque. -/
abbrev PromptData := String

/-- The per-script mapping segment key -> prompt entry, as an ordered
association list mirroring a JSON object. -/
abbrev ScriptPrompts := List (String × PromptData)

/-- The whole on-disk ALL_PROMPTS.json snapshot: script key -> per-script
mapping. -/
abbrev PromptStore := List (String × ScriptPrompts)

/-- Python dict assignment d[k] = v on an ordered mapping: replace in place
when the key is present, append at the end otherwise. -/
def updateAssoc {β : Type} (k : String) (v : β) :
    List (String × β) → List (String × β)
  | [] => [(k, v)]
  | (k1, v1) :: rest =>
    if k1 = k then (k1, v) :: rest else (k1, v1) :: updateAssoc k v rest

/-- Embeds the merge-save step of generate_prompts_for_script (llm.py): the
freshest on-disk snapshot is re-read into latest_all, then
latest_all.setdefault(script_key, dict()) followed by
latest_all[script_key][segment_key] = data, and the result is written back.
The input of this function is that freshest on-disk snapshot. -/
def savePromptsMerged (latest_all : PromptStore) (script_key segment_key : String)
    (data : PromptData) : PromptStore :=
  match latest_all with
  | [] => [(script_key, [(segment_key, data)])]
  | (k, m) :: rest =>
    if k = script_key then (k, updateAssoc segment_key data m) :: rest
    else (k, m) :: savePromptsMerged rest script_key segment_key data

theorem lookup_updateAssoc_self {β : Type} (k : String) (v : β) :
    ∀ l : List (String × β), (updateAssoc k v l).lookup k = some v := by
  intro l
  induction l with
  | nil => simp [updateAssoc, List.lookup]
  | cons hd tl ih =>
    obtain ⟨k1, v1⟩ := hd
    by_cases h : k1 = k
    · subst h
      simp [updateAssoc, List.lookup]
    · have hbeq : (k == k1) = false := by simp [Ne.symm h]
      simp [updateAssoc, h, List.lookup, hbeq, ih]

theorem lookup_updateAssoc_other {β : Type} (k k2 : String) (v : β)
    (hne : k2 ≠ k) :
    ∀ l : List (String × β), (updateAssoc k v l).lookup k2 = l.lookup k2 := by
  intro l
  have hbne : (k2 == k) = false := by simp [hne]
  induction l with
  | nil => simp [updateAssoc, List.lookup, hbne]
  | cons hd tl ih =>
    obtain ⟨k1, v1⟩ := hd
    by_cases h : k1 = k
    · subst h
      simp [updateAssoc, List.lookup, hbne]
    · by_cases h2 : k2 = k1
      · subst h2
        simp [updateAssoc, h, List.lookup]
      · have hb2 : (k2 == k1) = false := by simp [h2]
        simp [updateAssoc, h, List.lookup, hb2, ih]

/-- C5: merging one (script key, segment key) prompt entry into the latest
on-disk snapshot records the new entry, leaves the cached entry of every other script key unchanged, and leaves every other segment key of the same
script unchanged (entries being equal as stored values, hence re-serialized
byte-for-byte identically). -/
theorem C5_savePromptsMerged_preserves (latest : PromptStore)
    (sk seg : String) (d : PromptData) (sk2 seg2 : String) :
    (((savePromptsMerged latest sk seg d).lookup sk).getD []).lookup seg = some d ∧
    (sk2 ≠ sk → (savePromptsMerged latest sk seg d).lookup sk2 = latest.lookup sk2) ∧
    (seg2 ≠ seg →
      (((savePromptsMerged latest sk seg d).lookup sk).getD []).lookup seg2 =
        ((latest.lookup sk).getD []).lookup seg2) := by
  induction latest with
  | nil =>
    refine ⟨by simp [savePromptsMerged, List.lookup], fun hne => ?_, fun hne => ?_⟩
    · have hb : (sk2 == sk) = false := by simp [hne]
      simp [savePromptsMerged, List.lookup, hb]
    · have hb : (seg2 == seg) = false := by simp [hne]
      simp [savePromptsMerged, List.lookup, hb]
  | cons hd tl ih =>
    obtain ⟨k, m⟩ := hd
    by_cases h : k = sk
    · subst h
      refine ⟨?_, fun hne => ?_, fun hne => ?_⟩
      · simp only [savePromptsMerged, if_pos rfl, List.lookup, beq_self_eq_true]
        simpa using lookup_updateAssoc_self seg d m
      · have hb : (sk2 == k) = false := by simp [hne]
        simp [savePromptsMerged, List.lookup, hb]
      · simp only [savePromptsMerged, if_pos rfl, List.lookup, beq_self_eq_true]
        simpa using lookup_updateAssoc_other seg seg2 d hne m
    · have hb : (sk == k) = false := by simp [Ne.symm h]
      refine ⟨?_, fun hne => ?_, fun hne => ?_⟩
      · simp only [savePromptsMerged, if_neg h, List.lookup, hb]
        exact ih.1
      · by_cases h2 : sk2 = k
        · subst h2
          simp [savePromptsMerged, h, List.lookup]
        · have hb2 : (sk2 == k) = false := by simp [h2]
          simp only [savePromptsMerged, if_neg h, List.lookup, hb2]
          exact ih.2.1 hne
      · simp only [savePromptsMerged, if_neg h, List.lookup, hb]
        exact ih.2.2 hne

/-- Witness for C5 at the instance of the claim: after generating prompts
for segment2, the cached entry of segment1 is unchanged and the entry of
segment2 is recorded. -/
theorem C5_witness :
    (((savePromptsMerged [("script1", [("segment1", "P1")])] "script1" "segment2"
        "P2").lookup "script1").getD []).lookup "segment1" = some "P1" ∧
    (((savePromptsMerged [("script1", [("segment1", "P1")])] "script1" "segment2"
        "P2").lookup "script1").getD []).lookup "segment2" = some "P2" := by
  constructor
  · have h := (C5_savePromptsMerged_preserves [("script1", [("segment1", "P1")])]
      "script1" "segment2" "P2" "x" "segment1").2.2 (by decide)
    rw [h]
    decide
  · exact (C5_savePromptsMerged_preserves [("script1", [("segment1", "P1")])]
      "script1" "segment2" "P2" "x" "segment1").1

/-! ### Session State Machine (api/server.py, run_pipeline status handling) -/

/-- The progress object persisted in status.json. -/
structure Progress where
  total_segments : Nat
  completed : Nat
deriving DecidableEq

/-- The session status document persisted in status.json, restricted to the
fields the claims are about.  A Python dict.update keeps every key it is not
given, which the record-update below mirrors. -/
structure SessionStatus where
  state : String
  voice : Option String
  mode : Option String
  selected_script : Option String
  progress : Progress
  error : Option String
  artifacts : List (String × String)
deriving DecidableEq

/-- Embeds the status initialisation at the start of run_pipeline
(api/server.py lines 147-157): the prior status is read back and updated
with state, voice, mode, selected_script and a reset progress object; all
other keys of the prior snapshot are carried over. -/
def runStartStatus (prior : SessionStatus) (voice mode script_key : String)
    (n_segments : Nat) : SessionStatus :=
  { prior with
      state := "running"
      voice := some voice
      mode := some mode
      selected_script := some script_key
      progress := { total_segments := n_segments, completed := 0 } }

/-- C6 counterexample: for a session whose previous run failed with a
recorded error and produced artifacts, the snapshot written at the start of
a new run still carries the stale error and artifacts fields - they are not
cleared. -/
theorem C6_counterexample :
    (runStartStatus
        { state := "failed", voice := none, mode := none, selected_script := none,
          progress := { total_segments := 3, completed := 1 },
          error := some "boom",
          artifacts := [("final", "final_output.mp4")] }
        "en-US-AriaNeural" "videos" "script1" 3).error = some "boom" ∧
    (runStartStatus
        { state := "failed", voice := none, mode := none, selected_script := none,
          progress := { total_segments := 3, completed := 1 },
          error := some "boom",
          artifacts := [("final", "final_output.mp4")] }
        "en-US-AriaNeural" "videos" "script1" 3).artifacts ≠ [] := by
  exact ⟨rfl, by decide⟩

/-- C6 (amended): the snapshot written at the start of a new run resets
progress to (total = segment count of the selected script, completed = 0)
and sets state to running, but the prior error and artifacts fields are
carried over unchanged rather than cleared. -/
theorem C6_runStartStatus_resets_progress_keeps_error (prior : SessionStatus)
    (voice mode sk : String) (n : Nat) :
    (runStartStatus prior voice mode sk n).progress =
      { total_segments := n, completed := 0 } ∧
    (runStartStatus prior voice mode sk n).state = "running" ∧
    (runStartStatus prior voice mode sk n).error = prior.error ∧
    (runStartStatus prior voice mode sk n).artifacts = prior.artifacts :=
  ⟨rfl, rfl, rfl, rfl⟩

/-! ### Run snapshot trace (api/server.py, run_pipeline) -/

/-- Session states a run itself writes while executing. -/
inductive SessState
  | running
  | completed
  | failed
deriving DecidableEq

/-- One persisted status snapshot, restricted to the progress fields the
monotonicity claim is about. -/
structure Snap where
  state : SessState
  total : Nat
  completed : Nat
deriving DecidableEq

/-- Snapshots written by the per-segment loop while fully processing the
first k of n segments: before segment j+1 starts, completed = j is written;
after it finishes, completed = j + 1 is written. -/
def segSnaps (n k : Nat) : List Snap :=
  (List.range k).flatMap fun j => [⟨.running, n, j⟩, ⟨.running, n, j + 1⟩]

/-- Abstraction of where the external stages make a run end: full success,
an exception while processing segment i (1-based, after the initial
progress write of that segment), or an exception during final concatenation or
subtitling (assembly) after every segment completed. -/
inductive RunOutcome
  | success
  | segFail (i : Nat)
  | assemblyFail
deriving DecidableEq

/-- Validity of an outcome for a run over n segments. -/
def okOutcome (n : Nat) : RunOutcome → Prop
  | .segFail i => 1 ≤ i ∧ i ≤ n
  | _ => True

instance (n : Nat) : (o : RunOutcome) → Decidable (okOutcome n o)
  | .success => .isTrue trivial
  | .segFail i => inferInstanceAs (Decidable (1 ≤ i ∧ i ≤ n))
  | .assemblyFail => .isTrue trivial

/-- Embeds the sequence of status snapshots persisted by run_pipeline for a
selected script with n segments: the initial running snapshot with progress
reset, the per-segment writes, and the terminal completed or failed write
(the failed write keeps the progress of the last successful write, as the
status dict is mutated in place). -/
def runTrace (n : Nat) : RunOutcome → List Snap
  | .success => ⟨.running, n, 0⟩ :: (segSnaps n n ++ [⟨.completed, n, n⟩])
  | .segFail i =>
    ⟨.running, n, 0⟩ :: (segSnaps n (i - 1) ++
      [⟨.running, n, i - 1⟩, ⟨.failed, n, i - 1⟩])
  | .assemblyFail => ⟨.running, n, 0⟩ :: (segSnaps n n ++ [⟨.failed, n, n⟩])

/-- The progress.completed values of the per-segment writes. -/
def cseq (k : Nat) : List Nat :=
  (List.range k).flatMap fun j => [j, j + 1]

theorem segSnaps_map_completed (n k : Nat) :
    (segSnaps n k).map Snap.completed = cseq k := by
  simp [segSnaps, cseq, List.map_flatMap]

theorem cseq_le (k : Nat) : ∀ x ∈ cseq k, x ≤ k := by
  intro x hx
  simp only [cseq, List.mem_flatMap, List.mem_range] at hx
  obtain ⟨j, hj, hm⟩ := hx
  simp only [List.mem_cons, List.not_mem_nil, or_false] at hm
  rcases hm with rfl | rfl <;> omega

theorem cseq_succ (k : Nat) : cseq (k + 1) = cseq k ++ [k, k + 1] := by
  simp [cseq, List.range_succ]

theorem cseq_sorted (k : Nat) : List.Sorted (· ≤ ·) (cseq k) := by
  induction k with
  | zero => simp [cseq]
  | succ k ih =>
    rw [cseq_succ]
    show List.Pairwise (· ≤ ·) (cseq k ++ [k, k + 1])
    rw [List.pairwise_append]
    refine ⟨ih, by simp, fun x hx y hy => ?_⟩
    have hxk := cseq_le k x hx
    simp only [List.mem_cons, List.not_mem_nil, or_false] at hy
    rcases hy with rfl | rfl <;> omega

theorem mem_segSnaps_state {n k : Nat} {s : Snap} (h : s ∈ segSnaps n k) :
    s.state = SessState.running := by
  simp only [segSnaps, List.mem_flatMap, List.mem_range] at h
  obtain ⟨j, _, hm⟩ := h
  simp only [List.mem_cons, List.not_mem_nil, or_false] at hm
  rcases hm with rfl | rfl <;> rfl

/-- C1 (amended): within one run of the pipeline, progress.completed in the
successive persisted snapshots never decreases; any snapshot whose state is
completed has progress.completed equal to progress.totalSegments.  The
converse direction of the claim fails: see the counterexample, where an
assembly failure makes completed reach the total while the state becomes
failed. -/
theorem C1_run_progress_monotone (n : Nat) (o : RunOutcome)
    (hok : okOutcome n o) :
    List.Sorted (· ≤ ·) ((runTrace n o).map Snap.completed) ∧
    ∀ s ∈ runTrace n o, s.state = SessState.completed → s.completed = s.total := by
  constructor
  · cases o with
    | success =>
      simp only [runTrace, List.map_cons, List.map_append, segSnaps_map_completed,
        List.map_cons, List.map_nil, List.sorted_cons]
      refine ⟨fun b hb => Nat.zero_le b, ?_⟩
      show List.Pairwise (· ≤ ·) (cseq n ++ [n])
      rw [List.pairwise_append]
      refine ⟨cseq_sorted n, by simp, fun x hx y hy => ?_⟩
      have := cseq_le n x hx
      simp only [List.mem_cons, List.not_mem_nil, or_false] at hy
      subst hy
      omega
    | segFail i =>
      simp only [runTrace, List.map_cons, List.map_append, segSnaps_map_completed,
        List.map_cons, List.map_nil, List.sorted_cons]
      refine ⟨fun b hb => Nat.zero_le b, ?_⟩
      show List.Pairwise (· ≤ ·) (cseq (i - 1) ++ [i - 1, i - 1])
      rw [List.pairwise_append]
      refine ⟨cseq_sorted (i - 1), by simp; omega, fun x hx y hy => ?_⟩
      have := cseq_le (i - 1) x hx
      simp only [List.mem_cons, List.not_mem_nil, or_false] at hy
      rcases hy with rfl | rfl <;> omega
    | assemblyFail =>
      simp only [runTrace, List.map_cons, List.map_append, segSnaps_map_completed,
        List.map_cons, List.map_nil, List.sorted_cons]
      refine ⟨fun b hb => Nat.zero_le b, ?_⟩
      show List.Pairwise (· ≤ ·) (cseq n ++ [n])
      rw [List.pairwise_append]
      refine ⟨cseq_sorted n, by simp, fun x hx y hy => ?_⟩
      have := cseq_le n x hx
      simp only [List.mem_cons, List.not_mem_nil, or_false] at hy
      subst hy
      omega
  · intro s hs hstate
    cases o with
    | success =>
      simp only [runTrace, List.mem_cons, List.mem_append] at hs
      rcases hs with rfl | hs | hs
      · exact absurd hstate (by simp)
      · exact absurd hstate (by simp [mem_segSnaps_state hs])
      · simp only [List.mem_cons, List.not_mem_nil, or_false] at hs
        subst hs
        rfl
    | segFail i =>
      simp only [runTrace, List.mem_cons, List.mem_append] at hs
      rcases hs with rfl | hs | hs
      · exact absurd hstate (by simp)
      · exact absurd hstate (by simp [mem_segSnaps_state hs])
      · simp only [List.mem_cons, List.not_mem_nil, or_false] at hs
        rcases hs with rfl | rfl <;> exact absurd hstate (by simp)
    | assemblyFail =>
      simp only [runTrace, List.mem_cons, List.mem_append] at hs
      rcases hs with rfl | hs | hs
      · exact absurd hstate (by simp)
      · exact absurd hstate (by simp [mem_segSnaps_state hs])
      · simp only [List.mem_cons, List.not_mem_nil, or_false] at hs
        subst hs
        exact absurd hstate (by simp)

/-- Witness for C1 at a concrete run: two segments with a failure while
processing segment 1. -/
theorem C1_witness :
    okOutcome 2 (RunOutcome.segFail 1) ∧
    List.Sorted (· ≤ ·)
      ((runTrace 2 (RunOutcome.segFail 1)).map Snap.completed) :=
  ⟨by decide, (C1_run_progress_monotone 2 (RunOutcome.segFail 1) (by decide)).1⟩

/-- C1 counterexample: a run over one segment whose assembly stage fails.
The third snapshot has progress.completed = 1 = totalSegments, yet no
snapshot of the run ever has state completed (the run ends failed), so
reaching totalSegments does not imply the state becomes completed. -/
theorem C1_counterexample :
    runTrace 1 RunOutcome.assemblyFail =
      [⟨SessState.running, 1, 0⟩, ⟨SessState.running, 1, 0⟩,
       ⟨SessState.running, 1, 1⟩, ⟨SessState.failed, 1, 1⟩] := by decide

/-! ### Prompted stage fallback (api/server.py lines 185-207, main.py lines
245-261) -/

/-- The JSON object held under image1 / image2, e.g. [("prompt", text)]. -/
abbrev ImageSpec := List (String × String)

/-- The per-segment image-prompt object, keys image1 and image2. -/
abbrev ImagePrompts := List (String × ImageSpec)

/-- image_prompts.get(name, dict()).get("prompt", default) without the
default: the prompt text reachable under the given image name, if any. -/
def promptOf (ip : ImagePrompts) (name : String) : Option String :=
  ((ip.lookup name).getD []).lookup "prompt"

/-- Embeds the prompted stage of api/server.py run_pipeline: the cached
entry read from ALL_PROMPTS.json (empty when the file or entry is absent or
unparsable), then generate_prompts_for_script inside try/except with an
empty fallback, then the per-image .get chain defaulting to the raw segment
text. -/
def promptStageServer (cached : ImagePrompts)
    (gen : Except Unit (List (String × ImagePrompts)))
    (seg_key seg_text : String) : String × String :=
  let image_prompts : ImagePrompts :=
    if cached ≠ [] then cached
    else
      match gen with
      | .error _ => []
      | .ok out => (out.lookup seg_key).getD []
  ((promptOf image_prompts "image1").getD seg_text,
   (promptOf image_prompts "image2").getD seg_text)

/-- Embeds the prompted stage of main.py main: the cached entry, then an
unguarded call to generate_prompts_for_script (an exception propagates and
aborts the run), then out.get(seg_key) or a disk re-read or an empty dict,
then the same per-image .get chain. -/
def promptStageMain (cached : Option ImagePrompts)
    (gen : Except Unit (List (String × ImagePrompts)))
    (cached_after : Option ImagePrompts)
    (seg_key seg_text : String) : Except Unit (String × String) :=
  let c := cached.getD []
  if c ≠ [] then
    .ok ((promptOf c "image1").getD seg_text, (promptOf c "image2").getD seg_text)
  else
    match gen with
    | .error e => .error e
    | .ok out =>
      let o := (out.lookup seg_key).getD []
      let image_prompts := if o ≠ [] then o else cached_after.getD []
      .ok ((promptOf image_prompts "image1").getD seg_text,
           (promptOf image_prompts "image2").getD seg_text)

/-- C7 (amended): in the API server pipeline the prompted stage never
aborts: with no cached entry, a failed generation or a malformed result
(missing image1 / image2 prompt entries) falls back to the raw segment
narration text as both prompts; the CLI pipeline of main.py falls back the
same way for malformed successful results, but a prompt-generation
exception there propagates and aborts the run instead. -/
theorem C7_prompt_fallback (cached : ImagePrompts)
    (out : List (String × ImagePrompts)) (mcached mafter : Option ImagePrompts)
    (seg_key seg_text : String) :
    (cached = [] →
      promptStageServer cached (.error ()) seg_key seg_text = (seg_text, seg_text)) ∧
    (cached = [] →
      promptOf ((out.lookup seg_key).getD []) "image1" = none →
      promptOf ((out.lookup seg_key).getD []) "image2" = none →
      promptStageServer cached (.ok out) seg_key seg_text = (seg_text, seg_text)) ∧
    (mcached.getD [] = [] →
      promptStageMain mcached (.error ()) mafter seg_key seg_text = .error ()) ∧
    (mcached.getD [] = [] → mafter.getD [] = [] →
      promptOf ((out.lookup seg_key).getD []) "image1" = none →
      promptOf ((out.lookup seg_key).getD []) "image2" = none →
      promptStageMain mcached (.ok out) mafter seg_key seg_text =
        .ok (seg_text, seg_text)) := by
  refine ⟨fun hc => ?_, fun hc h1 h2 => ?_, fun hmc => ?_, fun hmc hma h1 h2 => ?_⟩
  · simp [promptStageServer, hc, promptOf]
  · simp [promptStageServer, hc, h1, h2]
  · simp [promptStageMain, hmc]
  · simp only [promptStageMain, hmc, ne_eq, not_true_eq_false, if_false]
    by_cases ho : (out.lookup seg_key).getD [] = []
    · simp [ho, hma, promptOf]
    · simp [ho, h1, h2]

/-- C7 counterexample: in the CLI pipeline (main.py), with no cached prompts
and a prompt-generation exception, the prompted stage propagates the
exception (aborting the run) instead of falling back to the narration
text. -/
theorem C7_counterexample :
    promptStageMain none (.error ()) none "segment1" "A fox walks." =
      .error () := by rfl

/-- Witness for C7 at concrete inputs: the server stage falls back to the
narration text when generation fails with nothing cached, and when the
generated result is malformed. -/
theorem C7_witness :
    promptStageServer [] (.error ()) "segment1" "A fox walks." =
      ("A fox walks.", "A fox walks.") ∧
    promptStageServer [] (.ok [("segment1", [("imageX", [("prompt", "p")])])])
      "segment1" "A fox walks." = ("A fox walks.", "A fox walks.") := by
  constructor
  · exact (C7_prompt_fallback [] [] none none "segment1" "A fox walks.").1 rfl
  · exact (C7_prompt_fallback [] [("segment1", [("imageX", [("prompt", "p")])])]
      none none "segment1" "A fox walks.").2.1 rfl (by decide) (by decide)

/-! ### Subtitle clamping (videogeneration/subtitles.py) -/

/-- Embeds _clamp_items_to_duration: each (start, end, text) item is clamped
into [0, max_duration - 1ms]; a span whose clamped end falls at or below its
clamped start gets end = min(start + 0.1, max_duration - 1ms). -/
def _clamp_items_to_duration (items : List (ℚ × ℚ × String))
    (max_duration : ℚ) : List (ℚ × ℚ × String) :=
  items.map fun it =>
    let eps : ℚ := 1/1000
    let s := max 0 (min it.1 (max_duration - eps))
    let e := max 0 (min it.2.1 (max_duration - eps))
    let e2 := if e ≤ s then min (s + 1/10) (max_duration - eps) else e
    (s, e2, it.2.2)

/-- Embeds the rendered spans of burn_subtitles_from_items: items are first
clamped against the video duration, then each TextClip is started at the
clamped start with duration max(end - start, 0.1). -/
def burn_subtitle_spans (items : List (ℚ × ℚ × String))
    (video_duration : ℚ) : List (ℚ × ℚ) :=
  (_clamp_items_to_duration items video_duration).map fun it =>
    (it.1, max (it.2.1 - it.1) (1/10))

/-- C9: before burn-in every transcribed span is clamped so both endpoints
lie in [0, videoDuration - 1ms], and a span whose clamped end is at or below
its clamped start is rendered with a minimal visible span of exactly 0.1
time-units starting at the clamped start. -/
theorem C9_clamp_items_correct (items : List (ℚ × ℚ × String))
    (D st en s e e2 : ℚ) (tx : String)
    (hD : 1/1000 ≤ D) (hmem : (st, en, tx) ∈ items)
    (hs : s = max 0 (min st (D - 1/1000)))
    (he : e = max 0 (min en (D - 1/1000)))
    (he2 : e2 = if e ≤ s then min (s + 1/10) (D - 1/1000) else e) :
    (s, e2, tx) ∈ _clamp_items_to_duration items D ∧
    0 ≤ s ∧ s ≤ D - 1/1000 ∧ 0 ≤ e2 ∧ e2 ≤ D - 1/1000 ∧
    (e ≤ s → e2 = min (s + 1/10) (D - 1/1000) ∧
      (s, 1/10) ∈ burn_subtitle_spans items D) := by
  have hD0 : (0:ℚ) ≤ D - 1/1000 := by linarith
  have hs0 : 0 ≤ s := by rw [hs]; exact le_max_left 0 _
  have hsD : s ≤ D - 1/1000 := by
    rw [hs]
    exact max_le hD0 (min_le_right _ _)
  have he0 : 0 ≤ e := by rw [he]; exact le_max_left 0 _
  have heD : e ≤ D - 1/1000 := by
    rw [he]
    exact max_le hD0 (min_le_right _ _)
  have hmem2 : (s, e2, tx) ∈ _clamp_items_to_duration items D := by
    rw [_clamp_items_to_duration, List.mem_map]
    refine ⟨(st, en, tx), hmem, ?_⟩
    subst he2 he hs
    rfl
  have he20 : 0 ≤ e2 := by
    rw [he2]
    by_cases hc : e ≤ s
    · rw [if_pos hc]
      apply le_min (by linarith) hD0
    · rw [if_neg hc]
      exact he0
  have he2D : e2 ≤ D - 1/1000 := by
    rw [he2]
    by_cases hc : e ≤ s
    · rw [if_pos hc]
      exact min_le_right _ _
    · rw [if_neg hc]
      exact heD
  refine ⟨hmem2, hs0, hsD, he20, he2D, fun hc => ?_⟩
  have he2' : e2 = min (s + 1/10) (D - 1/1000) := by rw [he2, if_pos hc]
  refine ⟨he2', ?_⟩
  rw [burn_subtitle_spans, List.mem_map]
  refine ⟨(s, e2, tx), hmem2, ?_⟩
  have hle : e2 - s ≤ 1/10 := by
    rw [he2']
    have := min_le_left (s + 1/10) (D - 1/1000)
    linarith
  simp only [Prod.mk.injEq]
  exact ⟨trivial, max_eq_right hle⟩

/-- Witness for C9: a 1s video with a transcribed span (0.95, 0.2) whose end
collapses below its start; the clamped item ends at 0.999 and the rendered
span is exactly 0.1 starting at the clamped start 0.95. -/
theorem C9_witness :
    ((95:ℚ)/100, (999:ℚ)/1000, "x") ∈
      _clamp_items_to_duration [((95:ℚ)/100, 2/10, "x")] 1 ∧
    ((95:ℚ)/100, (1:ℚ)/10) ∈ burn_subtitle_spans [((95:ℚ)/100, 2/10, "x")] 1 := by
  have h := C9_clamp_items_correct [((95:ℚ)/100, 2/10, "x")] 1 (95/100) (2/10)
    (95/100) (2/10) (999/1000) "x" (by norm_num) (by simp)
    (by rw [min_eq_left (by norm_num), max_eq_right (by norm_num)])
    (by rw [min_eq_left (by norm_num), max_eq_right (by norm_num)])
    (by rw [if_pos (by norm_num), min_eq_right (by norm_num)]; norm_num)
  exact ⟨h.1, (h.2.2.2.2.2 (by norm_num)).2⟩

/-! ### Slug generation (main.py slugify, api/server.py create_session) -/

/-- The character class kept by the slug filter regex (codepoints of
a-z, A-Z, 0-9, hyphen 45, underscore 95, dot 46, space 32): everything else
is removed. -/
def keepChar (c : Char) : Bool :=
  (decide (97 ≤ c.toNat) && decide (c.toNat ≤ 122)) ||
  (decide (65 ≤ c.toNat) && decide (c.toNat ≤ 90)) ||
  (decide (48 ≤ c.toNat) && decide (c.toNat ≤ 57)) ||
  c.toNat == 45 || c.toNat == 95 || c.toNat == 46 || c.toNat == 32

/-- Characters the final slug may contain according to the claim: lowercase
letters, digits, hyphen, underscore, dot. -/
def slugChar (c : Char) : Bool :=
  (decide (97 ≤ c.toNat) && decide (c.toNat ≤ 122)) ||
  (decide (48 ≤ c.toNat) && decide (c.toNat ≤ 57)) ||
  c.toNat == 45 || c.toNat == 95 || c.toNat == 46

/-- Python str.strip() on the filtered text: after the filter the only
whitespace left is the space character, so stripping removes leading and
trailing spaces. -/
def stripSpaces (l : List Char) : List Char :=
  ((l.dropWhile fun c => c == ' ').reverse.dropWhile fun c => c == ' ').reverse

/-- The whitespace-run collapsing substitution applied to the filtered,
stripped, lowered text: each maximal run of spaces (the only whitespace that
can remain) becomes a single hyphen. -/
def collapseSpaces : List Char → List Char
  | [] => []
  | [c] => if c = ' ' then ['-'] else [c]
  | c :: c2 :: rest =>
    if c = ' ' then
      if c2 = ' ' then collapseSpaces (c2 :: rest)
      else '-' :: collapseSpaces (c2 :: rest)
    else c :: collapseSpaces (c2 :: rest)

/-- Embeds main.py slugify.  The uuid8 parameter stands for the sampled
str(uuid.uuid4())[:8] used when the filtered idea is empty; its 8 lowercase
hex characters are hypotheses of the theorem. -/
def slugify (text : String) (uuid8 : String) (max_len : Nat := 40) : String :=
  let filtered := text.data.filter keepChar
  let stripped := stripSpaces filtered
  let lowered := stripped.map Char.toLower
  let slug := collapseSpaces lowered
  let slug2 := if slug = [] then uuid8.data else slug
  String.mk (slug2.take max_len)

/-- Embeds the session id construction of api/server.py create_session (and
main.py main): the timestamp string, a hyphen, and the slug of the idea. -/
def create_session_id (ts idea uuid8 : String) : String :=
  ts ++ "-" ++ slugify idea uuid8

theorem charToNat_inj {a b : Char} (h : a.toNat = b.toNat) : a = b :=
  Char.ext (UInt32.ext h)

theorem charToNat_ofNat {n : Nat} (h : n < 55296) : (Char.ofNat n).toNat = n := by
  rw [Char.ofNat, dif_pos (Or.inl h)]
  rfl

theorem toLower_toNat_of_upper {c : Char} (h1 : 65 ≤ c.toNat)
    (h2 : c.toNat ≤ 90) : (Char.toLower c).toNat = c.toNat + 32 := by
  simp only [Char.toLower]
  rw [if_pos ⟨h1, h2⟩]
  exact charToNat_ofNat (by omega)

theorem toLower_of_not_upper {c : Char} (h : ¬(65 ≤ c.toNat ∧ c.toNat ≤ 90)) :
    Char.toLower c = c := by
  simp only [Char.toLower]
  rw [if_neg h]

/-- A kept character lowers to a slug character or to the space. -/
theorem slugChar_toLower {c : Char} (h : keepChar c = true) :
    slugChar (Char.toLower c) = true ∨ Char.toLower c = ' ' := by
  simp only [keepChar, Bool.or_eq_true, Bool.and_eq_true, decide_eq_true_eq,
    beq_iff_eq] at h
  by_cases hup : 65 ≤ c.toNat ∧ c.toNat ≤ 90
  · left
    have hl := toLower_toNat_of_upper hup.1 hup.2
    simp only [slugChar, Bool.or_eq_true, Bool.and_eq_true, decide_eq_true_eq,
      beq_iff_eq, hl]
    omega
  · rw [toLower_of_not_upper hup]
    rcases h with (((((h | h) | h) | h) | h) | h) | h
    · left
      simp only [slugChar, Bool.or_eq_true, Bool.and_eq_true, decide_eq_true_eq,
        beq_iff_eq]
      omega
    · exact absurd h hup
    · left
      simp only [slugChar, Bool.or_eq_true, Bool.and_eq_true, decide_eq_true_eq,
        beq_iff_eq]
      omega
    · left
      simp only [slugChar, Bool.or_eq_true, Bool.and_eq_true, decide_eq_true_eq,
        beq_iff_eq]
      omega
    · left
      simp only [slugChar, Bool.or_eq_true, Bool.and_eq_true, decide_eq_true_eq,
        beq_iff_eq]
      omega
    · left
      simp only [slugChar, Bool.or_eq_true, Bool.and_eq_true, decide_eq_true_eq,
        beq_iff_eq]
      omega
    · right
      have h32 : Char.toNat ' ' = 32 := rfl
      exact charToNat_inj (by omega)

theorem mem_stripSpaces {l : List Char} {c : Char} (h : c ∈ stripSpaces l) :
    c ∈ l := by
  simp only [stripSpaces, List.mem_reverse] at h
  have h2 := (List.dropWhile_sublist (fun c => c == ' ')).subset h
  rw [List.mem_reverse] at h2
  exact (List.dropWhile_sublist (fun c => c == ' ')).subset h2

theorem mem_collapseSpaces : ∀ (l : List Char) (c : Char),
    c ∈ collapseSpaces l → c = '-' ∨ (c ∈ l ∧ c ≠ ' ')
  | [], c, h => by simp [collapseSpaces] at h
  | [d], c, h => by
    by_cases hd : d = ' '
    · rw [collapseSpaces, if_pos hd] at h
      simp only [List.mem_cons, List.not_mem_nil, or_false] at h
      exact Or.inl h
    · rw [collapseSpaces, if_neg hd] at h
      simp only [List.mem_cons, List.not_mem_nil, or_false] at h
      subst h
      exact Or.inr ⟨by simp, hd⟩
  | d :: d2 :: rest, c, h => by
    by_cases hd : d = ' '
    · by_cases hd2 : d2 = ' '
      · rw [collapseSpaces, if_pos hd, if_pos hd2] at h
        rcases mem_collapseSpaces (d2 :: rest) c h with h1 | ⟨h1, h2⟩
        · exact Or.inl h1
        · exact Or.inr ⟨List.mem_cons_of_mem _ h1, h2⟩
      · rw [collapseSpaces, if_pos hd, if_neg hd2] at h
        rcases List.mem_cons.mp h with h1 | h1
        · exact Or.inl h1
        · rcases mem_collapseSpaces (d2 :: rest) c h1 with h3 | ⟨h3, h4⟩
          · exact Or.inl h3
          · exact Or.inr ⟨List.mem_cons_of_mem _ h3, h4⟩
    · rw [collapseSpaces, if_neg hd] at h
      rcases List.mem_cons.mp h with h1 | h1
      · subst h1
        exact Or.inr ⟨List.mem_cons_self _ _, hd⟩
      · rcases mem_collapseSpaces (d2 :: rest) c h1 with h3 | ⟨h3, h4⟩
        · exact Or.inl h3
        · exact Or.inr ⟨List.mem_cons_of_mem _ h3, h4⟩

/-- C10: the session id is the timestamp, a hyphen, and the slug of the
idea; the slug is never empty, is at most 40 characters, and contains only
lowercase letters, digits, hyphens, underscores and dots (runs of the only
whitespace surviving the filter collapse to single hyphens inside slugify);
when the idea has no characters of the kept class other than spaces, the
slug is the 8-character random identifier. -/
theorem C10_slugify_correct (idea ts uuid8 : String)
    (hu_len : uuid8.length = 8)
    (hu_chars : ∀ c ∈ uuid8.data, slugChar c = true) :
    create_session_id ts idea uuid8 = ts ++ "-" ++ slugify idea uuid8 ∧
    slugify idea uuid8 ≠ "" ∧
    (slugify idea uuid8).length ≤ 40 ∧
    (∀ c ∈ (slugify idea uuid8).data, slugChar c = true) ∧
    ((∀ c ∈ idea.data, keepChar c = true → c = ' ') →
      slugify idea uuid8 = uuid8) := by
  have hulen : uuid8.data.length = 8 := hu_len
  have hkey : slugify idea uuid8 = String.mk
      ((if collapseSpaces ((stripSpaces (idea.data.filter keepChar)).map
          Char.toLower) = []
        then uuid8.data
        else collapseSpaces ((stripSpaces (idea.data.filter keepChar)).map
          Char.toLower)).take 40) := rfl
  refine ⟨rfl, ?_, ?_, ?_, ?_⟩
  · rw [hkey]
    intro hcon
    have hX : ((if collapseSpaces ((stripSpaces (idea.data.filter keepChar)).map
        Char.toLower) = [] then uuid8.data
        else collapseSpaces ((stripSpaces (idea.data.filter keepChar)).map
          Char.toLower)).take 40) = [] := congrArg String.data hcon
    by_cases hL : collapseSpaces ((stripSpaces (idea.data.filter keepChar)).map
        Char.toLower) = []
    · rw [if_pos hL, List.take_of_length_le (by omega)] at hX
      have : uuid8.data.length = 0 := by rw [hX]; rfl
      omega
    · rw [if_neg hL] at hX
      rcases List.take_eq_nil_iff.mp hX with h40 | hnil
      · exact absurd h40 (by omega)
      · exact hL hnil
  · rw [hkey]
    show (List.take 40 _).length ≤ 40
    rw [List.length_take]
    exact Nat.min_le_left _ _
  · intro c hc
    rw [hkey] at hc
    have hc2 := List.take_subset 40 _ hc
    by_cases hL : collapseSpaces ((stripSpaces (idea.data.filter keepChar)).map
        Char.toLower) = []
    · rw [if_pos hL] at hc2
      exact hu_chars c hc2
    · rw [if_neg hL] at hc2
      rcases mem_collapseSpaces _ c hc2 with rfl | ⟨hmem, hne⟩
      · rfl
      · rcases List.mem_map.mp hmem with ⟨c0, hc0, rfl⟩
        have hc0f := mem_stripSpaces hc0
        have hkeep := (List.mem_filter.mp hc0f).2
        rcases slugChar_toLower hkeep with hok | hsp
        · exact hok
        · exact absurd hsp hne
  · intro hsp
    have hdw : (idea.data.filter keepChar).dropWhile (fun c => c == ' ') = [] := by
      rw [List.dropWhile_eq_nil_iff]
      intro x hx
      have hm := List.mem_filter.mp hx
      simp [hsp x hm.1 hm.2]
    have hstr : stripSpaces (idea.data.filter keepChar) = [] := by
      rw [stripSpaces, hdw]
      rfl
    rw [hkey, hstr]
    show String.mk (uuid8.data.take 40) = uuid8
    rw [List.take_of_length_le (by omega)]

/-- Witness for C10 at concrete ideas: a normal idea gives a non-empty slug
of bounded length, and an idea with no retained characters falls back to the
8-character random identifier. -/
theorem C10_witness :
    slugify "A Kind Fox!" "a1b2c3d4" ≠ "" ∧
    (slugify "A Kind Fox!" "a1b2c3d4").length ≤ 40 ∧
    slugify " !!! " "a1b2c3d4" = "a1b2c3d4" := by
  have h := C10_slugify_correct "A Kind Fox!" "20250101-120000" "a1b2c3d4"
    (by decide) (by decide)
  have h2 := C10_slugify_correct " !!! " "20250101-120000" "a1b2c3d4"
    (by decide) (by decide)
  exact ⟨h.2.1, h.2.2.1, h2.2.2.2.2 (by decide)⟩
